import Mathlib

/-!
Shallow embedding of `src/players/NATHAN_bot.py` (class `NATHANBot`), a poker
decision policy, together with theorems settling the specification's claims.

Modelling conventions:
* Python floats are modelled as `ℚ` (all constants in the source are decimal
  literals, exactly representable).
* Python ints are `ℤ`, counters are `ℕ`.
* Python dicts keyed by player name are association lists; `dict.get(k, d)`
  is total lookup with default, `dict[k]` is an `Option`-valued lookup whose
  `none` case models a raised `KeyError`.
* The bot's mutable instance attributes form `BotState`; methods that mutate
  state return the new state explicitly.
* Fallible code returns `Except String`; `Except.error` models an uncaught
  Python exception propagating to the caller.
* External collaborators absent from `src/` (`engine.cards`, `bot_api`,
  `HandEvaluator`, `GameInfoAPI`) are modelled from the spec, as marked on
  each such definition.
-/

/-- Action kinds of the external `PlayerAction` enum; the source mentions
exactly FOLD, CHECK, CALL and RAISE. -/
inductive PlayerAction where
  | FOLD
  | CHECK
  | CALL
  | RAISE
deriving DecidableEq

/-- A playing card: the source only reads `card.rank.value` (an int, 2..14)
and `card.suit` (compared for equality only), so we carry those two fields. -/
structure Card where
  rank : ℕ
  suit : ℕ
deriving DecidableEq

/-- Modelled from the spec: the external `Rank` enum's `KING.value` on the
standard 2..14 scale (spec §4.1: ranks 2..Ace, bonus when max rank ≥ King). -/
def RankKINGvalue : ℕ := 13

/-- Modelled from the spec: the external `Rank` enum's `ACE.value`, the top of
the 2..14 scale (spec §4.1: normalization divides by `2.0 * Rank.ACE.value`). -/
def RankACEvalue : ℕ := 14

/-- Modelled from the spec: the ordinal strength the external
`HandEvaluator.HAND_RANKINGS` table assigns to label `pair`; the source reads
it as `HAND_RANKINGS.get('pair', 1)` with default 1, and the spec orders
high-card < pair < two-pair on an increasing ordinal scale. -/
def HAND_RANKINGS_pair : ℤ := 1

/-- Modelled from the spec: the ordinal strength for label `two_pair`, read by
the source as `HAND_RANKINGS.get('two_pair', 2)` with default 2. -/
def HAND_RANKINGS_two_pair : ℤ := 2

/-- The snapshot of the game the engine hands to every call. The fields
`round_name`, `current_bet`, `big_blind`, `pot`, `player_bets` and
`community_cards` are the attributes the source reads off `GameState`;
`is_last` and `players_after` are modelled from the spec (§6): they carry the
result of the external `GameInfoAPI.get_position_info`, which the source reads
as `pos.get('is_last', False)` and `pos.get('players_after', 0)`. -/
structure GameState where
  round_name : String
  current_bet : ℤ
  big_blind : ℤ
  pot : ℤ
  player_bets : List (String × ℤ)
  community_cards : List Card

  is_last : Bool
  players_after : ℤ

/-- Modelled from the spec (§6): `GameInfoAPI.calculate_bet_amount`, the amount
owed to call: `max(0, current_bet - already_contributed)`. -/
def GameInfoAPI.calculate_bet_amount (current_bet already_contributed : ℤ) : ℤ :=
  max 0 (current_bet - already_contributed)

/-- Modelled from the spec (§6): `GameInfoAPI.get_pot_odds = pot / amount_owed`,
left unspecified when the amount owed is 0 ("treated as free"); we use Lean's
total rational division, which returns 0 there.  Every caller in the source
either guards the owed-0 case separately or is made more permissive by it. -/
def GameInfoAPI.get_pot_odds (pot to_call : ℤ) : ℚ :=
  (pot : ℚ) / (to_call : ℚ)

/-- Python `int()` applied to a float/rational: truncation toward zero. -/
def pyInt (q : ℚ) : ℤ :=
  if 0 ≤ q then ⌊q⌋ else ⌈q⌉

/-- Python `d.get(k, default)` on a string-keyed dict of ints. -/
def dictGet (m : List (String × ℤ)) (k : String) (default : ℤ) : ℤ :=
  ((m.find? (fun p => p.1 == k)).map (fun p => p.2)).getD default

/-- Python `d[k]` on a string-keyed dict of ints; `none` models the
`KeyError` raised when the key is absent. -/
def dictLookup (m : List (String × ℤ)) (k : String) : Option ℤ :=
  (m.find? (fun p => p.1 == k)).map (fun p => p.2)

/-- One opponent's record in `opponent_stats`: the dict
`{'seen': _, 'raised': _, 'won': _}`. -/
structure OppStat where
  seen : ℕ
  raised : ℕ
  won : ℕ
deriving DecidableEq

/-- The mutable instance attributes of `NATHANBot` (set in `__init__`),
plus `name` from the base class. -/
structure BotState where
  name : String
  hands_played : ℕ
  hands_won : ℕ
  aggression : ℚ
  last_raised_preflop : Bool
  min_confidence_to_raise : ℚ
  min_confidence_to_play : ℚ
  opponent_stats : List (String × OppStat)

/-- `NATHANBot.__init__`: the initial instance state. -/
def NATHANBot.init (name : String) : BotState :=
  { name := name
    hands_played := 0
    hands_won := 0
    aggression := 0.6
    last_raised_preflop := false
    min_confidence_to_raise := 0.75
    min_confidence_to_play := 0.45
    opponent_stats := [] }

/-- `NATHANBot._evaluate_preflop_strength` on the two unpacked hole cards
(the caller `_preflop` has already checked there are exactly two). -/
def NATHANBot._evaluate_preflop_strength (c1 c2 : Card) : ℚ :=
  let r1 : ℚ := c1.rank
  let r2 : ℚ := c2.rank
  let suited := c1.suit = c2.suit
  let high_card_bonus :=
    (if max r1 r2 ≥ (RankKINGvalue : ℚ) then (0.18 : ℚ) else 0) +
      (if max r1 r2 = (RankACEvalue : ℚ) then (0.12 : ℚ) else 0)
  let pair_bonus : ℚ := if r1 = r2 then 0.3 else 0.0
  let distance := |r1 - r2|
  let connector_bonus : ℚ := if distance ≤ 1 then 0.15 else if distance = 2 then 0.08 else 0.0
  let suited_bonus : ℚ := if suited then 0.12 else 0.0
  let base := (r1 + r2) / (2.0 * (RankACEvalue : ℚ))
  let score := base * 0.4 + pair_bonus + connector_bonus + suited_bonus + high_card_bonus
  min 1.0 score

/-- `NATHANBot._choose_raise_amount`: `int(pot * factor)` clamped into the
betting bounds, with the source's final `if amount < min_bet` guard. -/
def NATHANBot._choose_raise_amount (game_state : GameState) (min_bet max_bet : ℤ)
    (factor : ℚ) : ℤ :=
  let desired := pyInt ((game_state.pot : ℚ) * factor)
  let amount := max min_bet desired
  let amount2 := min amount max_bet
  if amount2 < min_bet then min_bet else amount2

/-- `NATHANBot._has_strong_draw`: flush draw (4 to a suit), then the 4-window
exact-span-3 straight-draw approximation over the sorted distinct ranks, then
the ace-low wheel subsets. -/
def NATHANBot._has_strong_draw (all_cards : List Card) : Bool :=
  let suits := all_cards.map (fun c => c.suit)
  if suits.dedup.any (fun s => decide (4 ≤ suits.count s)) then true
  else
    let ranks := ((all_cards.map (fun c => c.rank)).dedup).mergeSort (fun a b => a ≤ b)
    if 4 ≤ ranks.length ∧
        (List.range (ranks.length - 3)).any
          (fun i => decide (((ranks.getD (i + 3) 0 : ℤ) - (ranks.getD i 0 : ℤ)) = 3)) then
      true
    else if ([14, 2, 3, 4].all (fun r => ranks.contains r)) ||
        ([2, 3, 4, 5].all (fun r => ranks.contains r)) then
      true
    else false

/-- `NATHANBot._should_bluff_or_value`: value-raise when the pot exceeds
`2 * max(1, aggression * 10)` for pair-or-better hands, otherwise fall back to
the aggression threshold 0.6. -/
def NATHANBot._should_bluff_or_value (self : BotState) (pot : ℤ) (rank_value : ℤ) : Bool :=
  if rank_value ≥ HAND_RANKINGS_pair then
    decide ((pot : ℚ) > 2 * max 1 (self.aggression * 10))
  else
    decide (self.aggression > 0.6)

/-- The local helper `fallback_check_call_fold` of `_postflop`: first legal of
check, call, fold. -/
def fallback_check_call_fold (legal_actions : List PlayerAction) : PlayerAction × ℤ :=
  if PlayerAction.CHECK ∈ legal_actions then (PlayerAction.CHECK, 0)
  else if PlayerAction.CALL ∈ legal_actions then (PlayerAction.CALL, 0)
  else (PlayerAction.FOLD, 0)

/-- `NATHANBot._preflop`.  The Python `return` fall-through is modelled with
the continuation lets `afterMedium` (the trailing check-or-fold) and
`mediumBlock` (the medium-strength block, entered when the strong-hand block
does not return). -/
def NATHANBot._preflop (self : BotState) (game_state : GameState) (hole_cards : List Card)
    (legal_actions : List PlayerAction) (min_bet max_bet : ℤ) : PlayerAction × ℤ :=
  match hole_cards with
  | [c1, c2] =>
    let confidence := NATHANBot._evaluate_preflop_strength c1 c2
    let late := game_state.is_last = true ∨ game_state.players_after ≤ 1
    let to_call := GameInfoAPI.calculate_bet_amount game_state.current_bet
      (dictGet game_state.player_bets self.name 0)
    let afterMedium : PlayerAction × ℤ :=
      if PlayerAction.CHECK ∈ legal_actions then (PlayerAction.CHECK, 0)
      else (PlayerAction.FOLD, 0)
    let mediumBlock : PlayerAction × ℤ :=
      if confidence ≥ self.min_confidence_to_play then
        if to_call = 0 then
          if PlayerAction.CHECK ∈ legal_actions then (PlayerAction.CHECK, 0)
          else if late ∧ PlayerAction.RAISE ∈ legal_actions then
            (PlayerAction.RAISE,
              NATHANBot._choose_raise_amount game_state min_bet max_bet 1.5)
          else afterMedium
        else
          let pot_odds := GameInfoAPI.get_pot_odds game_state.pot to_call
          if pot_odds ≥ 2.5 ∧ PlayerAction.CALL ∈ legal_actions then (PlayerAction.CALL, 0)
          else afterMedium
      else afterMedium
    if confidence ≥ self.min_confidence_to_raise then
      if PlayerAction.RAISE ∈ legal_actions then
        (PlayerAction.RAISE,
          NATHANBot._choose_raise_amount game_state min_bet max_bet
            (if late then 2.5 else 2.0))
      else if PlayerAction.CALL ∈ legal_actions ∧ to_call ≤ game_state.big_blind * 2 then
        (PlayerAction.CALL, 0)
      else mediumBlock
    else mediumBlock
  | _ => (PlayerAction.FOLD, 0)

/-- `NATHANBot._postflop`.  `evalRank` is the external
`HandEvaluator.evaluate_best_hand` composed with the `HAND_RANKINGS` table;
it is kept abstract (a parameter), so every theorem below holds for every
possible evaluator.  The `Except.error` case models the uncaught `KeyError`
of `game_state.player_bets[self.name]` in the pair branch. -/
def NATHANBot._postflop (evalRank : List Card → ℤ) (self : BotState) (game_state : GameState)
    (hole_cards : List Card) (legal_actions : List PlayerAction)
    (min_bet max_bet : ℤ) : Except String (PlayerAction × ℤ) :=
  let all_cards := hole_cards ++ game_state.community_cards
  let rank_value := evalRank all_cards
  if self.last_raised_preflop = true ∧ game_state.current_bet = 0 ∧
      PlayerAction.RAISE ∈ legal_actions ∧
      (rank_value ≥ HAND_RANKINGS_pair ∨ NATHANBot._has_strong_draw all_cards = true) then
    Except.ok (PlayerAction.RAISE,
      NATHANBot._choose_raise_amount game_state min_bet max_bet 0.6)
  else if rank_value ≥ HAND_RANKINGS_two_pair then
    if PlayerAction.RAISE ∈ legal_actions then
      Except.ok (PlayerAction.RAISE,
        NATHANBot._choose_raise_amount game_state min_bet max_bet 1)
    else Except.ok (fallback_check_call_fold legal_actions)
  else if rank_value ≥ HAND_RANKINGS_pair then
    let pot := game_state.pot
    if PlayerAction.CALL ∈ legal_actions then
      match dictLookup game_state.player_bets self.name with
      | none => Except.error "KeyError"
      | some my_bet =>
        let to_call := GameInfoAPI.calculate_bet_amount game_state.current_bet my_bet
        let pot_odds := GameInfoAPI.get_pot_odds pot to_call
        if pot_odds ≥ 1.5 ∨ to_call = 0 then
          if PlayerAction.RAISE ∈ legal_actions ∧
              NATHANBot._should_bluff_or_value self pot rank_value = true then
            Except.ok (PlayerAction.RAISE,
              NATHANBot._choose_raise_amount game_state min_bet max_bet 1)
          else Except.ok (PlayerAction.CALL, 0)
        else Except.ok (fallback_check_call_fold legal_actions)
    else Except.ok (fallback_check_call_fold legal_actions)
  else if NATHANBot._has_strong_draw all_cards = true then
    let to_call := GameInfoAPI.calculate_bet_amount game_state.current_bet
      (dictGet game_state.player_bets self.name 0)
    let pot_odds := GameInfoAPI.get_pot_odds game_state.pot to_call
    if to_call = 0 ∧ PlayerAction.RAISE ∈ legal_actions then
      Except.ok (PlayerAction.RAISE,
        NATHANBot._choose_raise_amount game_state min_bet max_bet 0.6)
    else if pot_odds ≥ 3.0 ∧ PlayerAction.CALL ∈ legal_actions then
      Except.ok (PlayerAction.CALL, 0)
    else Except.ok (fallback_check_call_fold legal_actions)
  else Except.ok (fallback_check_call_fold legal_actions)

/-- `NATHANBot.get_action`: the public decision entry point.  Returns the
decision (or a propagated exception) together with the post-call instance
state; only the preflop branch writes `last_raised_preflop`. -/
def NATHANBot.get_action (evalRank : List Card → ℤ) (self : BotState) (game_state : GameState)
    (hole_cards : List Card) (legal_actions : List PlayerAction) (min_bet max_bet : ℤ) :
    Except String (PlayerAction × ℤ) × BotState :=
  if legal_actions = [] then (Except.ok (PlayerAction.FOLD, 0), self)
  else if game_state.round_name = "preflop" then
    let action := NATHANBot._preflop self game_state hole_cards legal_actions min_bet max_bet
    (Except.ok action,
      { self with last_raised_preflop := decide (action.1 = PlayerAction.RAISE) })
  else
    (NATHANBot._postflop evalRank self game_state hole_cards legal_actions min_bet max_bet,
      self)

/-- The test `'winners' in hand_result and name in hand_result['winners']`;
the `winners` entry of the result dict is modelled as an optional list. -/
def winnersContain (winners : Option (List String)) (name : String) : Bool :=
  match winners with
  | none => false
  | some ws => ws.contains name

/-- Python `d.setdefault`-then-mutate on the `opponent_stats` dict: store
value `v` at key `k`, replacing an existing binding or appending a new one. -/
def oppStore (m : List (String × OppStat)) (k : String) (v : OppStat) :
    List (String × OppStat) :=
  if m.any (fun p => p.1 == k) then m.map (fun p => if p.1 == k then (k, v) else p)
  else m ++ [(k, v)]

/-- Lookup in the `opponent_stats` dict. -/
def oppGet (m : List (String × OppStat)) (k : String) : Option OppStat :=
  (m.find? (fun p => p.1 == k)).map (fun p => p.2)

/-- The body of the `try` block of `hand_complete`: fold the opponent-stat
updates over `game_state.player_bets.items()`.  In this typed model no step
can fail, so the surrounding `except Exception: pass` has nothing to catch. -/
def update_opponent_stats (self : BotState) (game_state : GameState)
    (winners : Option (List String)) : List (String × OppStat) :=
  game_state.player_bets.foldl
    (fun acc pb =>
      if pb.1 = self.name then acc
      else
        let stats0 := (oppGet acc pb.1).getD { seen := 0, raised := 0, won := 0 }
        let stats1 := { stats0 with seen := stats0.seen + 1 }
        let stats2 :=
          if pb.2 > game_state.big_blind * 2 then { stats1 with raised := stats1.raised + 1 }
          else stats1
        let stats3 :=
          if winnersContain winners pb.1 then { stats2 with won := stats2.won + 1 }
          else stats2
        oppStore acc pb.1 stats3)
    self.opponent_stats

/-- `NATHANBot.hand_complete`: bump the counters, nudge `aggression` toward
the 0.8 cap on a win or the 0.3 floor on a loss, then do the best-effort
opponent-stat bookkeeping. -/
def NATHANBot.hand_complete (self : BotState) (game_state : GameState)
    (winners : Option (List String)) : BotState :=
  let s1 := { self with hands_played := self.hands_played + 1 }
  let s2 :=
    if winnersContain winners s1.name then
      { s1 with hands_won := s1.hands_won + 1, aggression := min 0.8 (s1.aggression + 0.01) }
    else
      { s1 with aggression := max 0.3 (s1.aggression - 0.005) }
  { s2 with opponent_stats := update_opponent_stats s2 game_state winners }

/-- `NATHANBot.tournament_start`: reset the counters and set the base
aggression from the table size.  (`super().tournament_start` only records
data on the external base class, outside the modelled state; the unused
chip-count argument is kept for signature fidelity.) -/
def NATHANBot.tournament_start (self : BotState) (players : List String)
    (starting_chips : ℤ) : BotState :=
  let s1 := { self with hands_played := 0, hands_won := 0 }
  let _ := starting_chips
  if players.length ≤ 4 then { s1 with aggression := 0.65 }
  else if players.length ≥ 8 then { s1 with aggression := 0.45 }
  else { s1 with aggression := 0.55 }

/-! Concrete instances used by counterexamples and witnesses. -/

/-- A freshly constructed bot, as the engine would create it. -/
def bot0 : BotState := NATHANBot.init "NATHAN"

/-- A preflop game state: empty pot, nothing bet yet, bot in late position. -/
def gPre : GameState :=
  { round_name := "preflop", current_bet := 0, big_blind := 10, pot := 0,
    player_bets := [], community_cards := [], is_last := false, players_after := 0 }

/-- A postflop (flop) game state in which `player_bets` has no entry for the
bot's own name "NATHAN". -/
def gBug : GameState :=
  { round_name := "flop", current_bet := 20, big_blind := 10, pot := 30,
    player_bets := [("ALICE", 20)], community_cards := [], is_last := false, players_after := 1 }

/-- A hand evaluator stub that ranks everything as the weakest category. -/
def ev0 : List Card → ℤ := fun _ => 0

/-- A hand evaluator stub that ranks everything at the two-pair ordinal. -/
def ev2 : List Card → ℤ := fun _ => 2

/-- The bot state reached from `bot0` after a preflop decision that raised
(pocket aces, only RAISE legal); its `last_raised_preflop` flag is set. -/
def botRaised : BotState :=
  (NATHANBot.get_action ev0 bot0 gPre [⟨14, 0⟩, ⟨14, 1⟩] [PlayerAction.RAISE] 10 100).2

/-- Five cards of distinct suits containing the wheel-draw rank set
Ace, 2, 3, 4 but no four cards of one suit. -/
def wheelCards : List Card := [⟨14, 0⟩, ⟨2, 1⟩, ⟨3, 2⟩, ⟨4, 3⟩, ⟨10, 0⟩]

/-! Helper lemmas shared by several claims. -/

/-- Whenever folding is legal, the fallback helper returns a legal action. -/
theorem fallback_check_call_fold_mem (legal_actions : List PlayerAction)
    (h : PlayerAction.FOLD ∈ legal_actions) :
    (fallback_check_call_fold legal_actions).1 ∈ legal_actions := by
  unfold fallback_check_call_fold
  split_ifs with h1 h2 <;> simpa

/-- The three scalar fields written by `hand_complete`, in closed form. -/
theorem hand_complete_fields (s : BotState) (g : GameState) (w : Option (List String)) :
    (NATHANBot.hand_complete s g w).hands_played = s.hands_played + 1 ∧
    (NATHANBot.hand_complete s g w).hands_won =
      (if winnersContain w s.name then s.hands_won + 1 else s.hands_won) ∧
    (NATHANBot.hand_complete s g w).aggression =
      (if winnersContain w s.name then min 0.8 (s.aggression + 0.01)
       else max 0.3 (s.aggression - 0.005)) := by
  unfold NATHANBot.hand_complete
  dsimp only
  split_ifs with h <;> simp_all

/-- The aggression written by `tournament_start` is one of three constants. -/
theorem tournament_start_aggression (s : BotState) (players : List String) (chips : ℤ) :
    (NATHANBot.tournament_start s players chips).aggression = 0.65 ∨
    (NATHANBot.tournament_start s players chips).aggression = 0.45 ∨
    (NATHANBot.tournament_start s players chips).aggression = 0.55 := by
  unfold NATHANBot.tournament_start
  dsimp only
  split_ifs <;> simp

/-- Nonnegativity of the weighted preflop score from its five summands. -/
theorem score_nonneg_helper (b p c su h : ℚ) (hb : 0 ≤ b) (hp : 0 ≤ p) (hc : 0 ≤ c)
    (hs : 0 ≤ su) (hh : 0 ≤ h) : 0 ≤ b * 0.4 + p + c + su + h := by positivity

/-- Whenever folding is legal, the preflop decision is a legal action. -/
theorem preflop_mem (s : BotState) (g : GameState) (hole_cards : List Card)
    (legal_actions : List PlayerAction) (min_bet max_bet : ℤ)
    (h : PlayerAction.FOLD ∈ legal_actions) :
    (NATHANBot._preflop s g hole_cards legal_actions min_bet max_bet).1 ∈ legal_actions := by
  rcases hole_cards with - | ⟨c1, - | ⟨c2, - | ⟨c3, rest⟩⟩⟩ <;>
    simp only [NATHANBot._preflop] <;> try exact h
  split_ifs <;> simp_all [fallback_check_call_fold]

/-- Whenever folding is legal, any normally returned postflop decision is a
legal action. -/
theorem postflop_mem (evalRank : List Card → ℤ) (s : BotState) (g : GameState)
    (hole_cards : List Card) (legal_actions : List PlayerAction) (min_bet max_bet : ℤ)
    (h : PlayerAction.FOLD ∈ legal_actions) (p : PlayerAction × ℤ)
    (hp : NATHANBot._postflop evalRank s g hole_cards legal_actions min_bet max_bet
      = Except.ok p) :
    p.1 ∈ legal_actions := by
  unfold NATHANBot._postflop at hp
  dsimp only at hp
  split_ifs at hp
  all_goals try (split at hp)
  all_goals try (split_ifs at hp)
  all_goals try (simp only [Except.ok.injEq, reduceCtorEq] at hp)
  all_goals try (subst p)
  all_goals
    first
      | exact fallback_check_call_fold_mem _ h
      | simp_all

/-- Membership is preserved through the sorted deduplicated rank list. -/
theorem mem_sorted_dedup_ranks (l : List ℕ) (r : ℕ) :
    r ∈ l.dedup.mergeSort (fun a b => a ≤ b) ↔ r ∈ l := by
  rw [List.mem_mergeSort, List.mem_dedup]

/-! Claim C1. -/

/-- C1, amended: whenever FOLD is among the legal actions (in particular the
list is non-empty), the action component of any pair returned normally by
`get_action` is a member of `legal_actions`.  The unamended claim fails when
FOLD is not itself legal, because the defensive fallbacks return FOLD
unconditionally. -/
theorem get_action_returns_member_of_legal (evalRank : List Card → ℤ) (s : BotState)
    (g : GameState) (hole_cards : List Card) (legal_actions : List PlayerAction)
    (min_bet max_bet : ℤ) (hFold : PlayerAction.FOLD ∈ legal_actions)
    (p : PlayerAction × ℤ)
    (hp : (NATHANBot.get_action evalRank s g hole_cards legal_actions min_bet max_bet).1
      = Except.ok p) :
    p.1 ∈ legal_actions := by
  unfold NATHANBot.get_action at hp
  split_ifs at hp with h1 h2
  · dsimp only at hp
    injection hp with hp
    subst p
    exact hFold
  · dsimp only at hp
    injection hp with hp
    subst p
    exact preflop_mem s g hole_cards legal_actions min_bet max_bet hFold
  · exact postflop_mem evalRank s g hole_cards legal_actions min_bet max_bet hFold p hp

/-- C1 witness: on a flop state with a two-pair-or-better hand and legal
actions FOLD and RAISE, `get_action` returns RAISE, and the amended theorem
yields its membership in the legal list. -/
theorem get_action_returns_member_of_legal_witness :
    PlayerAction.FOLD ∈ [PlayerAction.FOLD, PlayerAction.RAISE] ∧
    PlayerAction.RAISE ∈ [PlayerAction.FOLD, PlayerAction.RAISE] := by
  refine ⟨by decide, ?_⟩
  exact get_action_returns_member_of_legal ev2 bot0 gBug []
    [PlayerAction.FOLD, PlayerAction.RAISE] 10 100 (by decide)
    (PlayerAction.RAISE, NATHANBot._choose_raise_amount gBug 10 100 1)
    (by simp [NATHANBot.get_action, NATHANBot._postflop, ev2, bot0, gBug, NATHANBot.init,
      HAND_RANKINGS_pair, HAND_RANKINGS_two_pair])

/-- C1 counterexample: with the non-empty legal list containing only RAISE and
a weak preflop hand, `get_action` returns FOLD, which is not a member of the
legal list — refuting the claim as stated for arbitrary non-empty lists. -/
theorem get_action_illegal_fold_counterexample :
    ([PlayerAction.RAISE] ≠ ([] : List PlayerAction)) ∧
    (NATHANBot.get_action ev0 bot0 gPre [⟨7, 0⟩, ⟨2, 1⟩] [PlayerAction.RAISE] 10 100).1
      = Except.ok (PlayerAction.FOLD, 0) ∧
    PlayerAction.FOLD ∉ [PlayerAction.RAISE] := by
  refine ⟨by simp, ?_, by decide⟩
  have hcr : (PlayerAction.CHECK = PlayerAction.RAISE) = False := by simp
  norm_num [NATHANBot.get_action, NATHANBot._preflop, NATHANBot._evaluate_preflop_strength,
    bot0, gPre, NATHANBot.init, RankKINGvalue, RankACEvalue, GameInfoAPI.calculate_bet_amount,
    dictGet, ev0, hcr]

/-! Claim C2. -/

/-- C2 is refuted by the code: on a postflop state whose `player_bets` lacks an
entry for the bot's own name, with a pair-ranked hand and CALL legal, the pair
branch of `_postflop` indexes `player_bets[self.name]` directly and the
resulting KeyError propagates out of `get_action`.  (The sibling branches use
`.get(self.name, 0)`; this theorem evaluates the code at the failing input.) -/
theorem postflop_keyerror_at_failing_input :
    (NATHANBot.get_action (fun _ => HAND_RANKINGS_pair) bot0 gBug [] [PlayerAction.CALL]
      10 100).1 = Except.error "KeyError" := by
  have h1 : ("flop" = "preflop") = False := by simp
  have h2 : ("ALICE" == "NATHAN") = false := by simp
  norm_num [NATHANBot.get_action, NATHANBot._postflop, bot0, gBug, NATHANBot.init,
    HAND_RANKINGS_pair, HAND_RANKINGS_two_pair, dictLookup, h1, h2]

/-! Claim C3. -/

/-- C3: starting from any aggression in the interval from 0.3 to 0.8, every
call to `hand_complete` (win or loss, any opponents) and every call to
`tournament_start` (any number of players) leaves aggression in that
interval. -/
theorem aggression_invariant_bounds (s : BotState) (g : GameState) (w : Option (List String))
    (players : List String) (chips : ℤ)
    (hlo : 0.3 ≤ s.aggression) (hhi : s.aggression ≤ 0.8) :
    (0.3 ≤ (NATHANBot.hand_complete s g w).aggression ∧
      (NATHANBot.hand_complete s g w).aggression ≤ 0.8) ∧
    (0.3 ≤ (NATHANBot.tournament_start s players chips).aggression ∧
      (NATHANBot.tournament_start s players chips).aggression ≤ 0.8) := by
  constructor
  · obtain ⟨-, -, h3⟩ := hand_complete_fields s g w
    rw [h3]
    split_ifs
    · constructor
      · exact le_min (by norm_num) (by linarith)
      · exact le_trans (min_le_left _ _) (by norm_num)
    · constructor
      · exact le_max_left _ _ |>.trans' (by norm_num)
      · exact max_le (by norm_num) (by linarith)
  · rcases tournament_start_aggression s players chips with h | h | h <;> rw [h] <;>
      constructor <;> norm_num

/-- C3 witness: instantiated at the freshly initialised bot (aggression 0.6),
a lost hand and a 3-player tournament start. -/
theorem aggression_invariant_bounds_witness :
    (0.3 ≤ (NATHANBot.hand_complete bot0 gBug none).aggression ∧
      (NATHANBot.hand_complete bot0 gBug none).aggression ≤ 0.8) ∧
    (0.3 ≤ (NATHANBot.tournament_start bot0 ["P1", "P2", "P3"] 1000).aggression ∧
      (NATHANBot.tournament_start bot0 ["P1", "P2", "P3"] 1000).aggression ≤ 0.8) :=
  aggression_invariant_bounds bot0 gBug none ["P1", "P2", "P3"] 1000
    (by norm_num [bot0, NATHANBot.init]) (by norm_num [bot0, NATHANBot.init])

/-! Claim C4. -/

/-- C4, amended: for every pot, factor and pair of bounds with
`min_bet ≤ max_bet`, the result of `_choose_raise_amount` lies between
`min_bet` and `max_bet`.  The unamended claim, quantified over arbitrary
bounds, fails when `min_bet > max_bet` (the final under-`min_bet` guard then
returns `min_bet`, exceeding `max_bet`). -/
theorem choose_raise_amount_bounds_of_le (g : GameState) (min_bet max_bet : ℤ) (factor : ℚ)
    (hpot : 0 ≤ g.pot) (hfac : 0 ≤ factor) (hle : min_bet ≤ max_bet) :
    min_bet ≤ NATHANBot._choose_raise_amount g min_bet max_bet factor ∧
      NATHANBot._choose_raise_amount g min_bet max_bet factor ≤ max_bet := by
  unfold NATHANBot._choose_raise_amount
  dsimp only
  generalize pyInt ((g.pot : ℚ) * factor) = d
  split_ifs <;> constructor <;> omega

/-- C4 witness: bounds 2 and 7 with pot 30 and factor 1. -/
theorem choose_raise_amount_bounds_witness :
    2 ≤ NATHANBot._choose_raise_amount gBug 2 7 1 ∧
      NATHANBot._choose_raise_amount gBug 2 7 1 ≤ 7 :=
  choose_raise_amount_bounds_of_le gBug 2 7 1 (by decide) zero_le_one (by decide)

/-- C4 counterexample: with pot 30 ≥ 0, factor 0 ≥ 0, `min_bet = 10` and
`max_bet = 5`, the function returns 10, which exceeds `max_bet`. -/
theorem choose_raise_amount_counterexample :
    (0 ≤ gBug.pot) ∧ ((0 : ℚ) ≤ 0) ∧
    NATHANBot._choose_raise_amount gBug 10 5 0 = 10 ∧
    ¬(NATHANBot._choose_raise_amount gBug 10 5 0 ≤ 5) := by
  have heval : NATHANBot._choose_raise_amount gBug 10 5 0 = 10 := by
    norm_num [NATHANBot._choose_raise_amount, pyInt, gBug, max_def, min_def]
  exact ⟨by decide, le_refl 0, heval, by rw [heval]; decide⟩

/-! Claim C5. -/

/-- C5: for every pair of hole cards (any ranks, any suits — in particular all
ranks 2..Ace), the preflop strength estimate lies in the closed unit
interval. -/
theorem preflop_strength_in_unit_interval (c1 c2 : Card) :
    0 ≤ NATHANBot._evaluate_preflop_strength c1 c2 ∧
      NATHANBot._evaluate_preflop_strength c1 c2 ≤ 1 := by
  unfold NATHANBot._evaluate_preflop_strength
  dsimp only
  constructor
  · refine le_min (by norm_num) ?_
    refine score_nonneg_helper _ _ _ _ _ (by positivity) ?_ ?_ ?_ ?_ <;>
      (split_ifs <;> norm_num)
  · exact le_trans (min_le_left _ _) (by norm_num)

/-! Claim C6. -/

/-- C6: for every game state, hole cards and bet bounds, `get_action` with an
empty `legal_actions` list returns exactly the pair (FOLD, 0), leaving the
state unchanged. -/
theorem get_action_empty_legal_returns_fold (evalRank : List Card → ℤ) (s : BotState)
    (g : GameState) (hole_cards : List Card) (min_bet max_bet : ℤ) :
    NATHANBot.get_action evalRank s g hole_cards [] min_bet max_bet =
      (Except.ok (PlayerAction.FOLD, 0), s) := by
  unfold NATHANBot.get_action
  simp

/-! Claim C7. -/

/-- C7: `_has_strong_draw` returns true whenever some suit occurs at least 4
times among the cards, and also whenever the rank values contain all of
Ace, 2, 3, 4 or all of 2, 3, 4, 5, regardless of suits. -/
theorem has_strong_draw_flush_or_wheel (all_cards : List Card)
    (h : (∃ su, 4 ≤ (all_cards.map (fun c => c.suit)).count su) ∨
         (∀ r ∈ ([14, 2, 3, 4] : List ℕ), r ∈ all_cards.map (fun c => c.rank)) ∨
         (∀ r ∈ ([2, 3, 4, 5] : List ℕ), r ∈ all_cards.map (fun c => c.rank))) :
    NATHANBot._has_strong_draw all_cards = true := by
  unfold NATHANBot._has_strong_draw
  dsimp only
  split_ifs with h1 h2 h3
  · rfl
  · rfl
  · rfl
  · exfalso
    rcases h with ⟨su, hsu⟩ | hw | hw
    · apply h1
      refine List.any_eq_true.mpr ⟨su, ?_, by simpa⟩
      rw [List.mem_dedup]
      exact List.count_pos_iff.mp (lt_of_lt_of_le (by norm_num) hsu)
    · apply h3
      rw [Bool.or_eq_true]
      left
      rw [List.all_eq_true]
      intro r hr
      exact List.elem_iff.mpr ((mem_sorted_dedup_ranks _ _).mpr (hw r (by simpa using hr)))
    · apply h3
      rw [Bool.or_eq_true]
      right
      rw [List.all_eq_true]
      intro r hr
      exact List.elem_iff.mpr ((mem_sorted_dedup_ranks _ _).mpr (hw r (by simpa using hr)))

/-- C7 witness: the wheel set Ace, 2, 3, 4 over four distinct suits (no
4-flush) is detected as a strong draw. -/
theorem has_strong_draw_flush_or_wheel_witness :
    NATHANBot._has_strong_draw wheelCards = true :=
  has_strong_draw_flush_or_wheel wheelCards (Or.inr (Or.inl (by decide)))

/-! Claim C8. -/

/-- C8: every call to `hand_complete` increments `hands_played`; when the
bot's own name is among the recorded winners it also increments `hands_won`
and sets aggression to `min 0.8 (aggression + 0.01)`, otherwise it leaves
`hands_won` unchanged and sets aggression to `max 0.3 (aggression - 0.005)`. -/
theorem hand_complete_counters_update (s : BotState) (g : GameState)
    (w : Option (List String)) :
    (NATHANBot.hand_complete s g w).hands_played = s.hands_played + 1 ∧
    (winnersContain w s.name = true →
      (NATHANBot.hand_complete s g w).hands_won = s.hands_won + 1 ∧
      (NATHANBot.hand_complete s g w).aggression = min 0.8 (s.aggression + 0.01)) ∧
    (winnersContain w s.name = false →
      (NATHANBot.hand_complete s g w).hands_won = s.hands_won ∧
      (NATHANBot.hand_complete s g w).aggression = max 0.3 (s.aggression - 0.005)) := by
  obtain ⟨h1, h2, h3⟩ := hand_complete_fields s g w
  refine ⟨h1, fun hw => ?_, fun hw => ?_⟩ <;> simp [h2, h3, hw]

/-- C8 witness: instantiated at the initial bot for a won hand (the bot listed
as winner) and for a lost hand (no winners recorded). -/
theorem hand_complete_counters_update_witness :
    (NATHANBot.hand_complete bot0 gBug (some ["NATHAN"])).hands_won = bot0.hands_won + 1 ∧
    (NATHANBot.hand_complete bot0 gBug none).hands_won = bot0.hands_won :=
  ⟨((hand_complete_counters_update bot0 gBug (some ["NATHAN"])).2.1 (by decide)).1,
    ((hand_complete_counters_update bot0 gBug none).2.2 (by decide)).1⟩

/-! Claim C9. -/

/-- C9, amended: on a `get_action` call with non-empty legal actions in the
preflop round, `last_raised_preflop` is overwritten to hold exactly when the
decision just returned is a raise; calls with empty legal actions and postflop
calls leave the flag unchanged (a postflop pass preserves, rather than
rewrites, the value set by the preceding preflop decision).  The unamended
claim fails because a preflop call with no legal actions returns a fold
without overwriting the flag. -/
theorem last_raised_preflop_overwrite (evalRank : List Card → ℤ) (s : BotState)
    (g : GameState) (hole_cards : List Card) (legal_actions : List PlayerAction)
    (min_bet max_bet : ℤ) :
    (legal_actions ≠ [] → g.round_name = "preflop" →
      ∀ a amt, (NATHANBot.get_action evalRank s g hole_cards legal_actions min_bet max_bet).1
          = Except.ok (a, amt) →
        ((NATHANBot.get_action evalRank s g hole_cards legal_actions min_bet
            max_bet).2.last_raised_preflop = true ↔ a = PlayerAction.RAISE)) ∧
    ((legal_actions = [] ∨ g.round_name ≠ "preflop") →
      (NATHANBot.get_action evalRank s g hole_cards legal_actions min_bet
          max_bet).2.last_raised_preflop = s.last_raised_preflop) := by
  unfold NATHANBot.get_action
  split_ifs with h1 h2
  · refine ⟨fun hne => absurd h1 hne, fun _ => rfl⟩
  · constructor
    · intro hne hpre a amt hp
      dsimp only at hp ⊢
      injection hp with hp
      simp [hp]
    · intro hor
      rcases hor with hor | hor
      · exact absurd hor h1
      · exact absurd h2 hor
  · refine ⟨fun hne hpre => absurd hpre h2, fun _ => rfl⟩

/-- C9 witness: a preflop call with malformed hole cards and only FOLD legal
returns a fold, and the flag is overwritten to false accordingly. -/
theorem last_raised_preflop_overwrite_witness :
    ((NATHANBot.get_action ev0 bot0 gPre [] [PlayerAction.FOLD] 10
        100).2.last_raised_preflop = true ↔ PlayerAction.FOLD = PlayerAction.RAISE) :=
  (last_raised_preflop_overwrite ev0 bot0 gPre [] [PlayerAction.FOLD] 10 100).1
    (by simp) rfl PlayerAction.FOLD 0
    (by simp [NATHANBot.get_action, NATHANBot._preflop, bot0, gPre, NATHANBot.init])

/-- C9 counterexample: after a preflop raise the flag is true; a further
preflop call on that state with an empty legal-action list returns (FOLD, 0)
yet leaves the flag true — so this decision neither overwrote the flag nor
left it equal to "the immediately preceding preflop decision returned a
raise", refuting the claim for every call. -/
theorem last_raised_preflop_counterexample :
    botRaised.last_raised_preflop = true ∧
    (NATHANBot.get_action ev0 botRaised gPre [] ([] : List PlayerAction) 10 100).1
      = Except.ok (PlayerAction.FOLD, 0) ∧
    (NATHANBot.get_action ev0 botRaised gPre [] ([] : List PlayerAction) 10
      100).2.last_raised_preflop = true ∧
    PlayerAction.FOLD ≠ PlayerAction.RAISE := by
  have hflag : botRaised.last_raised_preflop = true := by
    norm_num [botRaised, NATHANBot.get_action, NATHANBot._preflop,
      NATHANBot._evaluate_preflop_strength, NATHANBot._choose_raise_amount, pyInt, bot0, gPre,
      NATHANBot.init, RankKINGvalue, RankACEvalue, GameInfoAPI.calculate_bet_amount, dictGet,
      max_def, min_def]
  refine ⟨hflag, ?_, ?_, by decide⟩
  · simp [NATHANBot.get_action]
  · simpa [NATHANBot.get_action] using hflag

/-! Claim C10. -/

/-- C10: every `get_action` call leaves all instance state other than
`last_raised_preflop` unchanged — aggression, both counters, the opponent
statistics, the two confidence thresholds (and the name) keep their values. -/
theorem get_action_frame_effect (evalRank : List Card → ℤ) (s : BotState) (g : GameState)
    (hole_cards : List Card) (legal_actions : List PlayerAction) (min_bet max_bet : ℤ) :
    (NATHANBot.get_action evalRank s g hole_cards legal_actions min_bet max_bet).2.aggression
        = s.aggression ∧
    (NATHANBot.get_action evalRank s g hole_cards legal_actions min_bet max_bet).2.hands_played
        = s.hands_played ∧
    (NATHANBot.get_action evalRank s g hole_cards legal_actions min_bet max_bet).2.hands_won
        = s.hands_won ∧
    (NATHANBot.get_action evalRank s g hole_cards legal_actions min_bet max_bet).2.opponent_stats
        = s.opponent_stats ∧
    (NATHANBot.get_action evalRank s g hole_cards legal_actions min_bet
        max_bet).2.min_confidence_to_raise = s.min_confidence_to_raise ∧
    (NATHANBot.get_action evalRank s g hole_cards legal_actions min_bet
        max_bet).2.min_confidence_to_play = s.min_confidence_to_play ∧
    (NATHANBot.get_action evalRank s g hole_cards legal_actions min_bet max_bet).2.name
        = s.name := by
  unfold NATHANBot.get_action
  split_ifs <;> simp
